import Mathlib

/-!
# Looking Glass control-surface runtime: a shallow embedding

This file embeds the core runtime of the `looking-glass` repository in Lean 4
and proves (or refutes) the specification's claims about it.

The embedded components are:

* the `EventBus` (src `events/index.ts`): subscription lists per event name,
  synchronous `emit` with per-handler error containment and once-pruning;
* the `MCPServer` dispatcher (src `mcp/index.ts`): tool registry (`registerTool`,
  `listTools`, `callTool`), resource registries (`registerResource`,
  `unregisterResource`, `readResource`) and notification emission (`emit`);
* the transports (src `transports/index.ts`): the WebSocket transport's
  pending-request map (`request`, `handleResponse`, the timeout callback,
  `disconnect`) and the bounded `reconnect` machinery of both the HTTP+SSE
  and the WebSocket transports;
* the state store's `closeTab` action (src `state/index.ts`).

JavaScript `Map` objects are embedded as insertion-ordered association lists:
`set` replaces the value in place when the key is present and appends
otherwise, `delete` removes the entry, and iteration follows list order —
exactly the observable semantics of `Map` that the source relies on
(registration order is significant for resource lookup).

TypeScript functions that can throw are embedded as `Except String`-valued
functions; `try`/`catch` becomes a `match` on the `Except`.
-/

namespace LookingGlass

/-- JS `Map.prototype.set`: replace in place if the key is present (keeping its
insertion position), otherwise append at the end. -/
def mapSet {α : Type} (m : List (String × α)) (k : String) (v : α) :
    List (String × α) :=
  match m with
  | [] => [(k, v)]
  | (k', v') :: rest =>
      if k' = k then (k, v) :: rest else (k', v') :: mapSet rest k v

/-- JS `Map.prototype.delete`: remove the entry with the given key. -/
def mapDelete {α : Type} (m : List (String × α)) (k : String) :
    List (String × α) :=
  m.filter (fun p => p.1 ≠ k)

/-- JS `Map.prototype.get`: the value at the (first) entry with the key. -/
def mapGet {α : Type} (m : List (String × α)) (k : String) : Option α :=
  (m.find? (fun p => p.1 = k)).map (·.2)

/-- JS `Map.prototype.has`. -/
def mapHas {α : Type} (m : List (String × α)) (k : String) : Bool :=
  (mapGet m k).isSome

/-- The key sequence of a map, in insertion order. -/
def mapKeys {α : Type} (m : List (String × α)) : List String :=
  m.map (·.1)

-- ============================================================================
-- MCPServer: tool registry (mcp/index.ts)
-- ============================================================================

/-- `ToolResult` from `types/index.ts`: `{success, data?, error?}`. The opaque
`data` payload is a type parameter. -/
structure ToolResult (V : Type) where
  success : Bool
  data : Option V := none
  error : Option String := none
deriving DecidableEq, Repr

/-- A tool handler: async function from the parameter payload to a
`ToolResult`; a thrown exception is modelled as `Except.error` carrying the
error message (`error instanceof Error ? error.message : String(error)`). -/
abbrev ToolHandler (P V : Type) := P → Except String (ToolResult V)

/-- `ToolDefinition` from `types/index.ts`, restricted to the fields the
dispatcher reads (`inputSchema` is never consulted by `callTool`). The
handler is optional, exactly as in the source. -/
structure ToolDefinition (P V : Type) where
  name : String
  description : String := ""
  handler : Option (ToolHandler P V) := none

/-- The dispatcher's tool registry: the `tools` map of `MCPServer`. -/
abbrev ToolRegistry (P V : Type) := List (String × ToolDefinition P V)

/-- `MCPServer.registerTool`: `this.tools.set(tool.name, tool)` (a warning is
logged when the name is already present; logging has no effect on state). -/
def registerTool {P V : Type} (tools : ToolRegistry P V)
    (tool : ToolDefinition P V) : ToolRegistry P V :=
  mapSet tools tool.name tool

/-- `MCPServer.unregisterTool`: `this.tools.delete(name)`. -/
def unregisterTool {P V : Type} (tools : ToolRegistry P V) (name : String) :
    ToolRegistry P V :=
  mapDelete tools name

/-- `MCPServer.listTools`: `Array.from(this.tools.values())`. -/
def listTools {P V : Type} (tools : ToolRegistry P V) :
    List (ToolDefinition P V) :=
  tools.map (·.2)

/-- `MCPServer.callTool`. The two event-bus emissions inside it
(`MCP_TOOL_CALL`, `MCP_TOOL_RESULT`) cannot throw — `EventBus.emit` catches
every handler error — so the returned value is fully determined by the
registry lookup and the handler, and the function is total: it always
returns a `ToolResult`, never an exception. -/
def callTool {P V : Type} (tools : ToolRegistry P V) (name : String)
    (params : P) : ToolResult V :=
  match mapGet tools name with
  | none => { success := false, error := some ("Tool not found: " ++ name) }
  | some tool =>
      match tool.handler with
      | none =>
          { success := false, error := some ("Tool has no handler: " ++ name) }
      | some h =>
          match h params with
          | .ok result => result
          | .error e => { success := false, error := some e }

-- ============================================================================
-- MCPServer: resource registries (mcp/index.ts)
-- ============================================================================

/-- `ResourceDefinition` from `types/index.ts`. -/
structure ResourceDefinition where
  uri : String
  name : String := ""
  description : String := ""
  mimeType : Option String := none
deriving DecidableEq, Repr

/-- The two parallel registries of `MCPServer`: `resources` (definitions) and
`resourceHandlers` (async functions from URI to payload), both keyed by URI. -/
structure ResourceRegistries (V : Type) where
  resources : List (String × ResourceDefinition)
  resourceHandlers : List (String × (String → V))

/-- `MCPServer.registerResource`: `this.resources.set(resource.uri, resource);
this.resourceHandlers.set(resource.uri, handler)`. -/
def registerResource {V : Type} (s : ResourceRegistries V)
    (resource : ResourceDefinition) (handler : String → V) :
    ResourceRegistries V :=
  { resources := mapSet s.resources resource.uri resource
    resourceHandlers := mapSet s.resourceHandlers resource.uri handler }

/-- `MCPServer.unregisterResource`: `this.resources.delete(uri);
this.resourceHandlers.delete(uri)`. -/
def unregisterResource {V : Type} (s : ResourceRegistries V) (uri : String) :
    ResourceRegistries V :=
  { resources := mapDelete s.resources uri
    resourceHandlers := mapDelete s.resourceHandlers uri }

/-- JS `uri.startsWith(prefixStr)`: the prefix's character sequence is an
initial segment of the string's character sequence. -/
def strStartsWith (s prefixStr : String) : Bool :=
  prefixStr.data.isPrefixOf s.data

/-- `pattern.replace(/\*$/, '')`: drop a single trailing `*` if present. -/
def stripWildcard (pattern : String) : String :=
  if pattern.data.getLast? = some '*' then String.mk pattern.data.dropLast
  else pattern

/-- The lookup phase of `MCPServer.readResource`: exact match in
`resourceHandlers` first; on a miss, the `for (const [pattern, h] of
this.resourceHandlers)` loop takes the first entry (insertion order) whose
wildcard-stripped pattern the URI starts with. -/
def findResourceHandler {V : Type}
    (handlers : List (String × (String → V))) (uri : String) :
    Option (String → V) :=
  match mapGet handlers uri with
  | some h => some h
  | none =>
      (handlers.find? (fun p => strStartsWith uri (stripWildcard p.1))).map
        (·.2)

/-- `MCPServer.readResource`: on a total miss it throws
`Error('Resource not found: ' + uri)` (embedded as `Except.error`); otherwise
it invokes the found handler on the full requested URI (`handler(uri)`). The
`MCP_RESOURCE_READ` bus emission between lookup and invocation cannot throw
and does not affect the value. -/
def readResource {V : Type} (handlers : List (String × (String → V)))
    (uri : String) : Except String V :=
  match findResourceHandler handlers uri with
  | none => .error ("Resource not found: " ++ uri)
  | some h => .ok (h uri)

-- ============================================================================
-- MCPServer: notification emission (mcp/index.ts, MCPServer.emit)
-- ============================================================================

/-- `Notification` from `types/index.ts`: `{type, data, timestamp?}`. -/
structure Notification (V : Type) where
  type : String
  data : V
  timestamp : Option Nat := none
deriving DecidableEq, Repr

/-- The observable side effects of `MCPServer.emit`, in program order. -/
inductive NotifyEffect (V : Type) where
  | busPublish (n : Notification V)
  | transportSend (n : Notification V)
deriving DecidableEq, Repr

/-- `MCPServer.emit(notification)`: build the enriched notification (stamping
`Date.now()` when `timestamp` is absent), publish it on the event bus, then —
only if a transport is attached — forward it via
`transport.sendNotification`. The returned list records the side effects in
the order the source performs them. -/
def serverEmit {V : Type} (hasTransport : Bool) (now : Nat)
    (n : Notification V) : List (NotifyEffect V) :=
  let enriched : Notification V :=
    { n with timestamp := some (n.timestamp.getD now) }
  [NotifyEffect.busPublish enriched] ++
    (if hasTransport then [NotifyEffect.transportSend enriched] else [])

-- ============================================================================
-- EventBus (events/index.ts)
-- ============================================================================

/-- A `Subscription` record as stored by `EventBus.subscribe`: `{id, handler,
once}`. The handler function itself is represented by its subscription id;
its behaviour (whether the invocation throws) is supplied separately to
`busEmit`, so one definition covers every possible handler. -/
structure Subscription where
  id : Nat
  once : Bool
deriving DecidableEq, Repr

/-- `EventBus.subscribe` for a single event name: allocate
`sub_${++subscriptionCounter}` and push `{id, handler, once}` onto the
event's list. Returns the new list and the new counter. -/
def busSubscribe (subs : List Subscription) (counter : Nat) (once : Bool) :
    List Subscription × Nat :=
  (subs ++ [{ id := counter + 1, once := once }], counter + 1)

/-- The `for (const sub of subs)` loop of `EventBus.emit`. For each
subscription, `sub.handler(data)` is invoked inside `try`; if it returns
normally and `sub.once` holds, the id is pushed onto `toRemove`; if it
throws, the `catch` only logs, so the `once` check is skipped. Returns
(invoked ids in order, `toRemove`). `throws sub.id` tells whether that
handler's invocation throws. -/
def busEmitLoop (throws : Nat → Bool) :
    List Subscription → List Nat × List Nat
  | [] => ([], [])
  | sub :: rest =>
      let tail := busEmitLoop throws rest
      if throws sub.id then (sub.id :: tail.1, tail.2)
      else if sub.once then (sub.id :: tail.1, sub.id :: tail.2)
      else (sub.id :: tail.1, tail.2)

/-- The outcome of one `EventBus.emit` pass on one event's subscription
list: the updated list and the ids of the handlers that were invoked. -/
structure EmitResult where
  subs : List Subscription
  invoked : List Nat
deriving DecidableEq, Repr

/-- `EventBus.emit` restricted to one event name: run the handler loop, then
(`if (toRemove.length > 0)`) replace the subscription list by the entries
whose ids are not in `toRemove`. -/
def busEmit (throws : Nat → Bool) (subs : List Subscription) : EmitResult :=
  let r := busEmitLoop throws subs
  { subs :=
      if r.2.length = 0 then subs
      else subs.filter (fun s => !(r.2.contains s.id))
    invoked := r.1 }

-- ============================================================================
-- WebSocketTransport: pending-request map (transports/index.ts)
-- ============================================================================

/-- How a pending request's promise settles: `resolve(result)` or
`reject(new Error(err))`. -/
inductive WSOutcome where
  | resolved
  | rejected (err : String)
deriving DecidableEq, Repr

/-- The per-request timeout of `WebSocketTransport.request`:
`setTimeout(..., 30000)`. -/
def requestTimeoutMs : Nat := 30000

/-- The observable state of a `WebSocketTransport` instance. Correlation ids
`req_${++requestCounter}` are represented by the counter value itself (the
template string is injective in the counter, so `Nat` keys model the id
space faithfully). `pending` holds the keys of the `pendingRequests` map in
insertion order; `settled` records, in order, every invocation of a
pending request's `resolve`/`reject` continuation. -/
structure WSState where
  connected : Bool := false
  requestCounter : Nat := 0
  reconnectAttempts : Nat := 0
  maxReconnectAttempts : Nat := 10
  pending : List Nat := []
  settled : List (Nat × WSOutcome) := []
deriving DecidableEq, Repr

/-- The initial state of a freshly constructed `WebSocketTransport` with
default options. -/
def wsInit : WSState := {}

/-- `WebSocketTransport.request`: allocate `req_${++requestCounter}` and
insert the `{resolve, reject}` record under that fresh key
(`pendingRequests.set` on a fresh key appends). The envelope send and the
`setTimeout` registration do not change the map. -/
def wsRequest (s : WSState) : WSState :=
  { s with
    requestCounter := s.requestCounter + 1
    pending := s.pending ++ [s.requestCounter + 1] }

/-- The common settle step of the response handler and the timeout callback:
`pendingRequests.delete(id)` followed by invoking the continuation with
outcome `o`. -/
def wsSettle (s : WSState) (id : Nat) (o : WSOutcome) : WSState :=
  { s with
    pending := s.pending.filter (fun x => x ≠ id)
    settled := s.settled ++ [(id, o)] }

/-- The timeout callback registered by `request`: fetch the pending entry by
id; only if it is still present, delete it and `reject(new Error('Request
timeout'))`. When the entry is gone (already answered, or wiped by
`disconnect`), the callback does nothing — in particular it does NOT
reject. -/
def wsTimeoutFire (s : WSState) (id : Nat) : WSState :=
  if s.pending.contains id then
    wsSettle s id (WSOutcome.rejected "Request timeout")
  else s

/-- `WebSocketTransport.handleResponse`: look up the pending entry by the
envelope's id; if absent, return silently; otherwise delete it and either
`reject(new Error(message.error))` or `resolve(message.result)`. -/
def wsHandleResponse (s : WSState) (id : Nat) (err : Option String) :
    WSState :=
  if s.pending.contains id then
    wsSettle s id
      (match err with
       | some e => WSOutcome.rejected e
       | none => WSOutcome.resolved)
  else s

/-- `WebSocketTransport.disconnect`: close and null the socket, set
`connected = false`, and `pendingRequests.clear()` — no continuation is
invoked for the cleared entries. -/
def wsDisconnect (s : WSState) : WSState :=
  { s with connected := false, pending := [] }

/-- The events that touch the pending-request map, for trace reasoning. A
`timeoutFire id` event models the 30s timer of request `id` expiring;
`response id err` models an inbound `response` envelope. -/
inductive WSEvent where
  | request
  | response (id : Nat) (err : Option String)
  | timeoutFire (id : Nat)
  | disconnect
deriving DecidableEq, Repr

/-- One event's effect on the transport state. -/
def wsStep (s : WSState) : WSEvent → WSState
  | WSEvent.request => wsRequest s
  | WSEvent.response id err => wsHandleResponse s id err
  | WSEvent.timeoutFire id => wsTimeoutFire s id
  | WSEvent.disconnect => wsDisconnect s

/-- Run a trace of events from a state. -/
def wsRun (s : WSState) (events : List WSEvent) : WSState :=
  events.foldl wsStep s

/-- How many times the continuation of correlation id `id` has been
invoked. -/
def settleCount (s : WSState) (id : Nat) : Nat :=
  (s.settled.filter (fun p => p.1 = id)).length

/-- The per-instance invariant the pending-request machinery maintains: the
pending key list is duplicate-free, every key ever issued is bounded by the
monotone request counter, a key still pending has never settled, and no
key's continuation has been invoked more than once. -/
def WSInv (s : WSState) : Prop :=
  s.pending.Nodup ∧
  (∀ id ∈ s.pending, id ≤ s.requestCounter) ∧
  (∀ p ∈ s.settled, p.1 ≤ s.requestCounter) ∧
  (∀ id ∈ s.pending, settleCount s id = 0) ∧
  (∀ id, settleCount s id ≤ 1)

-- ============================================================================
-- Bounded reconnection (transports/index.ts, HttpSseTransport and
-- WebSocketTransport)
-- ============================================================================

/-- The constructor option merge `{reconnectInterval: 5000,
maxReconnectAttempts: 10, ...options}` of both transports: an omitted
`maxReconnectAttempts` defaults to 10. -/
def resolveMaxReconnectAttempts (given : Option Nat) : Nat :=
  given.getD 10

/-- The reconnect-relevant state of an `HttpSseTransport` instance. -/
structure HttpSseState where
  connected : Bool := false
  reconnectAttempts : Nat := 0
  maxReconnectAttempts : Nat := 10
deriving DecidableEq, Repr

/-- `HttpSseTransport.reconnect`: if `reconnectAttempts >=
maxReconnectAttempts`, log and return without scheduling anything;
otherwise increment the attempt counter and schedule one `connect()` call.
The boolean reports whether a connect attempt was scheduled. -/
def httpSseReconnect (s : HttpSseState) : HttpSseState × Bool :=
  if s.maxReconnectAttempts ≤ s.reconnectAttempts then (s, false)
  else ({ s with reconnectAttempts := s.reconnectAttempts + 1 }, true)

/-- `eventSource.onopen` inside `HttpSseTransport.connect`: a successful
explicit connection sets `connected = true` and resets
`reconnectAttempts = 0`, re-arming the retry budget. -/
def httpSseOnOpen (s : HttpSseState) : HttpSseState :=
  { s with connected := true, reconnectAttempts := 0 }

/-- `WebSocketTransport.reconnect`: textually the same bounded policy as the
HTTP+SSE variant, on the WebSocket instance state. -/
def wsReconnect (s : WSState) : WSState × Bool :=
  if s.maxReconnectAttempts ≤ s.reconnectAttempts then (s, false)
  else ({ s with reconnectAttempts := s.reconnectAttempts + 1 }, true)

/-- `socket.onopen` inside `WebSocketTransport.connect`: sets
`connected = true` and resets `reconnectAttempts = 0`. -/
def wsOnOpen (s : WSState) : WSState :=
  { s with connected := true, reconnectAttempts := 0 }

-- ============================================================================
-- State store: closeTab (state/index.ts)
-- ============================================================================

/-- A shell tab, restricted to the fields `closeTab` reads. -/
structure Tab where
  id : String
  label : String := ""
  closable : Bool := true
deriving DecidableEq, Repr

/-- The `shell.tabs` slice of the store: `{items, activeId}` with
`activeId : string | null`. -/
structure TabsState where
  items : List Tab
  activeId : Option String
deriving DecidableEq, Repr

/-- The `closeTab` action: `remaining = items.filter(t => t.id !== id)`;
`newActiveId = activeId === id ? (remaining[0]?.id ?? null) : activeId`.
(The `SHELL_TAB_CLOSED` bus emission does not touch the tabs state.) -/
def closeTab (s : TabsState) (id : String) : TabsState :=
  let remaining := s.items.filter (fun t => t.id ≠ id)
  let newActiveId :=
    if s.activeId = some id then remaining.head?.map Tab.id else s.activeId
  { items := remaining, activeId := newActiveId }

-- ============================================================================
-- Helper lemmas about the JS-Map embedding
-- ============================================================================

theorem mapGet_nil {α : Type} (k : String) : mapGet ([] : List (String × α)) k = none := rfl

theorem mapGet_cons {α : Type} (k' : String) (v' : α) (rest : List (String × α))
    (k : String) :
    mapGet ((k', v') :: rest) k = if k' = k then some v' else mapGet rest k := by
  by_cases h : k' = k
  · simp [mapGet, List.find?_cons_of_pos, h]
  · simp [mapGet, List.find?_cons_of_neg, h]

theorem mapGet_mapSet_self {α : Type} (m : List (String × α)) (k : String)
    (v : α) : mapGet (mapSet m k v) k = some v := by
  induction m with
  | nil => simp [mapSet, mapGet_cons, mapGet_nil]
  | cons p rest ih =>
      obtain ⟨k', v'⟩ := p
      by_cases h : k' = k
      · simp [mapSet, h, mapGet_cons]
      · simp [mapSet, h, mapGet_cons, ih]

theorem mem_mapSet {α : Type} (m : List (String × α)) (k : String) (v : α)
    (p : String × α) (hp : p ∈ mapSet m k v) : p ∈ m ∨ p = (k, v) := by
  induction m with
  | nil => simp [mapSet] at hp; simp [hp]
  | cons q rest ih =>
      obtain ⟨k', v'⟩ := q
      by_cases h : k' = k
      · simp [mapSet, h] at hp
        rcases hp with hp | hp
        · right; simp [hp]
        · left; simp [hp]
      · simp [mapSet, h] at hp
        rcases hp with hp | hp
        · left; simp [hp]
        · rcases ih hp with h1 | h1
          · left; simp [h1]
          · right; exact h1

theorem mapSet_cons_eq {α : Type} (k : String) (v v' : α)
    (rest : List (String × α)) :
    mapSet ((k, v') :: rest) k v = (k, v) :: rest := by
  simp [mapSet]

theorem mapSet_cons_ne {α : Type} (k k' : String) (v v' : α)
    (rest : List (String × α)) (h : k' ≠ k) :
    mapSet ((k', v') :: rest) k v = (k', v') :: mapSet rest k v := by
  simp [mapSet, h]

theorem mapKeys_mapSet {α : Type} (m : List (String × α)) (k : String)
    (v : α) :
    mapKeys (mapSet m k v) =
      if k ∈ mapKeys m then mapKeys m else mapKeys m ++ [k] := by
  induction m with
  | nil => simp [mapSet, mapKeys]
  | cons p rest ih =>
      obtain ⟨k', v'⟩ := p
      by_cases h : k' = k
      · subst h
        rw [mapSet_cons_eq]
        rw [if_pos (by simp [mapKeys])]
        rfl
      · rw [mapSet_cons_ne _ _ _ _ _ h]
        have hcons : mapKeys ((k', v') :: mapSet rest k v) =
            k' :: mapKeys (mapSet rest k v) := rfl
        rw [hcons, ih]
        by_cases hk : k ∈ mapKeys rest
        · rw [if_pos hk, if_pos (by
            show k ∈ mapKeys ((k', v') :: rest)
            exact List.mem_cons.mpr (Or.inr hk))]
          rfl
        · rw [if_neg hk, if_neg (by
            show k ∉ mapKeys ((k', v') :: rest)
            intro hc
            rcases List.mem_cons.mp hc with h1 | h1
            · exact h h1.symm
            · exact hk h1)]
          rfl

theorem mapKeys_mapDelete {α : Type} (m : List (String × α)) (k : String) :
    mapKeys (mapDelete m k) = (mapKeys m).filter (fun x => x ≠ k) := by
  induction m with
  | nil => rfl
  | cons p rest ih =>
      obtain ⟨k', v'⟩ := p
      by_cases h : k' = k
      · rw [show mapDelete ((k', v') :: rest) k = mapDelete rest k from by
          simp [mapDelete, List.filter_cons, h]]
        rw [show (mapKeys ((k', v') :: rest)).filter (fun x => x ≠ k) =
            (mapKeys rest).filter (fun x => x ≠ k) from by
          show (k' :: mapKeys rest).filter (fun x => x ≠ k) = _
          simp [List.filter_cons, h]]
        exact ih
      · rw [show mapDelete ((k', v') :: rest) k =
            (k', v') :: mapDelete rest k from by
          simp [mapDelete, List.filter_cons, h]]
        rw [show mapKeys ((k', v') :: mapDelete rest k) =
            k' :: mapKeys (mapDelete rest k) from rfl]
        rw [ih]
        rw [show (mapKeys ((k', v') :: rest)).filter (fun x => x ≠ k) =
            k' :: (mapKeys rest).filter (fun x => x ≠ k) from by
          show (k' :: mapKeys rest).filter (fun x => x ≠ k) = _
          simp [List.filter_cons, h]]

theorem filter_key_eq_nil {α : Type} (m : List (String × α)) (k : String)
    (h : k ∉ mapKeys m) : m.filter (fun p => p.1 = k) = [] := by
  induction m with
  | nil => rfl
  | cons p rest ih =>
      obtain ⟨k', v'⟩ := p
      have h1 : ¬(k' = k) := fun hc => h (List.mem_cons.mpr (Or.inl hc.symm))
      have h2 : k ∉ mapKeys rest := fun hc => h (List.mem_cons.mpr (Or.inr hc))
      rw [List.filter_cons, if_neg (by simp [h1])]
      exact ih h2

theorem mapSet_filter_key_length {α : Type} (m : List (String × α))
    (k : String) (v : α) (hnodup : (mapKeys m).Nodup) :
    ((mapSet m k v).filter (fun p => p.1 = k)).length = 1 := by
  induction m with
  | nil => simp [mapSet]
  | cons p rest ih =>
      obtain ⟨k', v'⟩ := p
      have hnd : (mapKeys rest).Nodup ∧ k' ∉ mapKeys rest := by
        have := List.nodup_cons.mp
          (show (k' :: mapKeys rest).Nodup from hnodup)
        exact ⟨this.2, this.1⟩
      by_cases h : k' = k
      · subst h
        rw [mapSet_cons_eq]
        rw [List.filter_cons, if_pos (by simp)]
        rw [filter_key_eq_nil rest k' hnd.2]
        rfl
      · rw [mapSet_cons_ne _ _ _ _ _ h]
        rw [List.filter_cons, if_neg (by simp [h])]
        exact ih hnd.1

theorem mapHas_eq_mem_keys {α : Type} (m : List (String × α)) (k : String) :
    mapHas m k = true ↔ k ∈ mapKeys m := by
  simp [mapHas, mapGet, mapKeys, List.find?_isSome]

theorem mapHas_congr {α β : Type} (m1 : List (String × α))
    (m2 : List (String × β)) (hk : mapKeys m1 = mapKeys m2) (k : String) :
    mapHas m1 k = mapHas m2 k := by
  cases h1 : mapHas m1 k <;> cases h2 : mapHas m2 k
  · rfl
  · have := (mapHas_eq_mem_keys m2 k).mp h2
    rw [← hk] at this
    rw [(mapHas_eq_mem_keys m1 k).mpr this] at h1
    exact absurd h1 (by simp)
  · have := (mapHas_eq_mem_keys m1 k).mp h1
    rw [hk] at this
    rw [(mapHas_eq_mem_keys m2 k).mpr this] at h2
    exact absurd h2 (by simp)
  · rfl

-- ============================================================================
-- C1
-- ============================================================================

/-- C1: `MCPServer.callTool` is a total function into `ToolResult` — it never
propagates an exception to its caller — and returns the structured failure
`success := false` with a `Tool not found` message when the name is
unregistered, a `Tool has no handler` message when the registered tool has
no handler, the caught handler's error message when the handler throws, and
the handler's own result when it returns normally. -/
theorem callTool_never_throws_structured_result {P V : Type}
    (tools : ToolRegistry P V) (name : String) (params : P) :
    (mapGet tools name = none →
      callTool tools name params =
        { success := false, error := some ("Tool not found: " ++ name) }) ∧
    (∀ tool, mapGet tools name = some tool → tool.handler = none →
      callTool tools name params =
        { success := false,
          error := some ("Tool has no handler: " ++ name) }) ∧
    (∀ tool h e, mapGet tools name = some tool → tool.handler = some h →
      h params = .error e →
      callTool tools name params = { success := false, error := some e }) ∧
    (∀ tool h r, mapGet tools name = some tool → tool.handler = some h →
      h params = .ok r → callTool tools name params = r) := by
  refine ⟨?_, ?_, ?_, ?_⟩
  · intro hnone
    simp [callTool, hnone]
  · intro tool htool hnoh
    simp [callTool, htool, hnoh]
  · intro tool h e htool hh he
    simp [callTool, htool, hh, he]
  · intro tool h r htool hh hr
    simp [callTool, htool, hh, hr]

/-- Witness for C1: invoking the unregistered operation `missing` on an empty
registry yields the structured not-found failure. -/
theorem callTool_never_throws_structured_result_witness :
    callTool ([] : ToolRegistry Nat Nat) "missing" 0 =
      { success := false, error := some "Tool not found: missing" } :=
  (callTool_never_throws_structured_result
    ([] : ToolRegistry Nat Nat) "missing" 0).1 rfl

-- ============================================================================
-- C7
-- ============================================================================

/-- C7: `MCPServer.emit` stamps the current time when the notification has no
timestamp (and keeps an existing one), publishes the enriched notification
on the internal event bus before any outbound send, forwards it to the
attached transport's `sendNotification` afterwards, and performs only the
internal publication when no transport is attached. -/
theorem serverEmit_orders_bus_before_transport {V : Type}
    (hasTransport : Bool) (now : Nat) (n : Notification V) :
    (∀ e ∈ serverEmit hasTransport now n,
      (match e with
       | NotifyEffect.busPublish m => m.timestamp
       | NotifyEffect.transportSend m => m.timestamp) =
        some (n.timestamp.getD now)) ∧
    ((serverEmit hasTransport now n).head? =
      some (NotifyEffect.busPublish
        { n with timestamp := some (n.timestamp.getD now) })) ∧
    (hasTransport = false →
      serverEmit hasTransport now n =
        [NotifyEffect.busPublish
          { n with timestamp := some (n.timestamp.getD now) }]) ∧
    (hasTransport = true →
      serverEmit hasTransport now n =
        [NotifyEffect.busPublish
          { n with timestamp := some (n.timestamp.getD now) },
         NotifyEffect.transportSend
          { n with timestamp := some (n.timestamp.getD now) }]) := by
  refine ⟨?_, ?_, ?_, ?_⟩
  · intro e he
    cases hasTransport
    · simp [serverEmit] at he
      simp [he]
    · simp [serverEmit] at he
      rcases he with he | he <;> simp [he]
  · cases hasTransport <;> simp [serverEmit]
  · intro h; subst h; simp [serverEmit]
  · intro h; subst h; simp [serverEmit]

/-- Witness for C7: a timestamp-less notification emitted with no transport
attached produces exactly one internal bus publication, stamped with the
current time. -/
theorem serverEmit_orders_bus_before_transport_witness :
    serverEmit false 7 ({ type := "x", data := 5 } : Notification Nat) =
      [NotifyEffect.busPublish { type := "x", data := 5, timestamp := some 7 }] :=
  (serverEmit_orders_bus_before_transport false 7
    ({ type := "x", data := 5 } : Notification Nat)).2.2.1 rfl

-- ============================================================================
-- C9
-- ============================================================================

/-- C9: `closeTab` removes the tab with the given id from the tab list
(keeping the other tabs in order); if the closed tab was the active one, the
first remaining tab becomes active, or the active id becomes `null` when no
tabs remain; if the closed tab was not the active one, the active id is
unchanged. -/
theorem closeTab_spec (s : TabsState) (id : String) :
    ((closeTab s id).items = s.items.filter (fun t => t.id ≠ id)) ∧
    (∀ t ∈ (closeTab s id).items, t.id ≠ id) ∧
    (s.activeId = some id → (closeTab s id).items = [] →
      (closeTab s id).activeId = none) ∧
    (s.activeId = some id → ∀ t ts, (closeTab s id).items = t :: ts →
      (closeTab s id).activeId = some t.id) ∧
    (s.activeId ≠ some id → (closeTab s id).activeId = s.activeId) := by
  refine ⟨rfl, ?_, ?_, ?_, ?_⟩
  · intro t ht
    simp [closeTab] at ht
    exact ht.2
  · intro hact hempty
    have hfil : s.items.filter (fun t => t.id ≠ id) = [] := hempty
    show (closeTab s id).activeId = none
    simp only [closeTab]
    rw [if_pos hact, hfil]
    rfl
  · intro hact t ts hcons
    have hfil : s.items.filter (fun u => u.id ≠ id) = t :: ts := hcons
    show (closeTab s id).activeId = some t.id
    simp only [closeTab]
    rw [if_pos hact, hfil]
    rfl
  · intro hact
    simp [closeTab, hact]

/-- Witness for C9: closing the active tab `a` of the list `[a, b]` leaves
`[b]` and makes `b` the active tab. -/
theorem closeTab_spec_witness :
    (closeTab { items := [{ id := "a" }, { id := "b" }],
                activeId := some "a" } "a").activeId = some "b" := by
  have h := (closeTab_spec
    { items := [{ id := "a" }, { id := "b" }], activeId := some "a" }
    "a").2.2.2.1 rfl ({ id := "b" } : Tab) [] (by decide)
  simpa using h

-- ============================================================================
-- C5
-- ============================================================================

theorem find?_first_of_split {β : Type} (pred : β → Bool) (l1 l2 : List β)
    (p : β) (h1 : ∀ q ∈ l1, pred q = false) (hp : pred p = true) :
    (l1 ++ p :: l2).find? pred = some p := by
  induction l1 with
  | nil => simp [List.find?_cons, hp]
  | cons a rest ih =>
      have ha : pred a = false := h1 a (by simp)
      simp only [List.cons_append, List.find?_cons, ha]
      exact ih (fun q hq => h1 q (by simp [hq]))

/-- C5: `MCPServer.readResource` first tries an exact-match lookup of the URI
in the handler registry; on a miss it scans the registered entries in
registration order and selects the first whose wildcard-stripped pattern the
URI starts with, passing the handler the full requested URI (not the
stripped pattern); on a total miss it fails with the `Resource not found`
rejection rather than returning an empty payload. -/
theorem readResource_lookup_order {V : Type}
    (handlers : List (String × (String → V))) (uri : String) :
    (∀ h, mapGet handlers uri = some h →
      readResource handlers uri = .ok (h uri)) ∧
    (mapGet handlers uri = none →
      ∀ l1 p l2, handlers = l1 ++ p :: l2 →
        (∀ q ∈ l1, strStartsWith uri (stripWildcard q.1) = false) →
        strStartsWith uri (stripWildcard p.1) = true →
        readResource handlers uri = .ok (p.2 uri)) ∧
    (mapGet handlers uri = none →
      (∀ q ∈ handlers, strStartsWith uri (stripWildcard q.1) = false) →
      readResource handlers uri = .error ("Resource not found: " ++ uri)) := by
  refine ⟨?_, ?_, ?_⟩
  · intro h hget
    simp [readResource, findResourceHandler, hget]
  · intro hmiss l1 p l2 hsplit hnone hp
    have hfind : handlers.find?
        (fun q => strStartsWith uri (stripWildcard q.1)) = some p := by
      rw [hsplit]
      exact find?_first_of_split _ l1 l2 p hnone hp
    simp [readResource, findResourceHandler, hmiss, hfind]
  · intro hmiss hall
    have hfind : handlers.find?
        (fun q => strStartsWith uri (stripWildcard q.1)) = none := by
      apply List.find?_eq_none.mpr
      intro x hx
      simp [hall x hx]
    simp [readResource, findResourceHandler, hmiss, hfind]

/-- Witness for C5: with the wildcard resource `memory://*` registered and
its handler being the identity, reading `memory://recent` exercises the
prefix scan and the handler receives the full URI, not the stripped
`memory://`. -/
theorem readResource_lookup_order_witness :
    readResource [("memory://*", fun s => s)] "memory://recent" =
      Except.ok "memory://recent" :=
  (readResource_lookup_order [("memory://*", fun s => s)]
    "memory://recent").2.1 rfl [] ("memory://*", fun s => s) [] rfl
    (by simp) (by decide)

-- ============================================================================
-- C3 (code bug)
-- ============================================================================

/-- C3, evaluated at the failing input: a once-subscription whose handler
throws. In `EventBus.emit` the `toRemove.push(sub.id)` sits inside the `try`
AFTER the handler call, so the throw skips it and the `catch` only logs; the
once-handler therefore survives the first emission and is invoked again by a
second `emit` — contradicting the claim (and the source's own doc comment
"Subscribe to an event, but only fire once"). The four conjuncts evaluate
the code: `once` registers subscription 1; the first emission invokes it;
the subscription list afterwards still contains it; the second emission
invokes it again. -/
theorem once_handler_refires_after_throw :
    (busSubscribe [] 0 true).1 = [{ id := 1, once := true }] ∧
    (busEmit (fun _ => true) (busSubscribe [] 0 true).1).invoked = [1] ∧
    (busEmit (fun _ => true) (busSubscribe [] 0 true).1).subs =
      [{ id := 1, once := true }] ∧
    (busEmit (fun _ => true)
      (busEmit (fun _ => true) (busSubscribe [] 0 true).1).subs).invoked =
      [1] :=
  ⟨rfl, rfl, rfl, rfl⟩

-- ============================================================================
-- C2 (corrected)
-- ============================================================================

theorem wsInv_init : WSInv wsInit := by
  refine ⟨?_, ?_, ?_, ?_, ?_⟩ <;> simp [wsInit, settleCount, WSInv]

theorem wsInv_settle (s : WSState) (id : Nat) (o : WSOutcome) (h : WSInv s)
    (hid : id ∈ s.pending) : WSInv (wsSettle s id o) := by
  obtain ⟨hnd, hpb, hsb, hps, hs1⟩ := h
  refine ⟨?_, ?_, ?_, ?_, ?_⟩
  · exact hnd.filter _
  · intro j hj
    simp only [wsSettle, List.mem_filter] at hj
    exact hpb j hj.1
  · intro p hp
    simp only [wsSettle, List.mem_append, List.mem_singleton] at hp
    rcases hp with hp | hp
    · exact hsb p hp
    · subst hp
      exact hpb id hid
  · intro j hj
    simp only [wsSettle, List.mem_filter] at hj
    have hj1 : j ∈ s.pending := hj.1
    have hj2 : j ≠ id := by simpa using hj.2
    have h0 : (s.settled.filter (fun p => p.1 = j)).length = 0 := hps j hj1
    have hemp : ([(id, o)].filter (fun p => p.1 = j)) = [] := by
      simp [Ne.symm hj2]
    simp [settleCount, wsSettle, List.filter_append, hemp, h0]
  · intro j
    by_cases hji : j = id
    · subst hji
      have h0 : (s.settled.filter (fun p => p.1 = j)).length = 0 := hps j hid
      simp [settleCount, wsSettle, List.filter_append, h0]
    · have h1 : (s.settled.filter (fun p => p.1 = j)).length ≤ 1 := hs1 j
      have hemp : ([(id, o)].filter (fun p => p.1 = j)) = [] := by
        simp [Ne.symm hji]
      simp [settleCount, wsSettle, List.filter_append, hemp]
      exact h1

theorem wsInv_request (s : WSState) (h : WSInv s) : WSInv (wsRequest s) := by
  obtain ⟨hnd, hpb, hsb, hps, hs1⟩ := h
  refine ⟨?_, ?_, ?_, ?_, ?_⟩
  · simp only [wsRequest]
    apply List.Nodup.append hnd (by simp)
    intro a ha hb
    simp at hb
    have := hpb a ha
    omega
  · intro j hj
    simp only [wsRequest, List.mem_append, List.mem_singleton] at hj ⊢
    rcases hj with hj | hj
    · have := hpb j hj
      omega
    · omega
  · intro p hp
    simp only [wsRequest] at hp ⊢
    have := hsb p hp
    omega
  · intro j hj
    simp only [wsRequest, List.mem_append, List.mem_singleton] at hj
    rcases hj with hj | hj
    · have := hps j hj
      simpa [settleCount, wsRequest] using this
    · have hemp : s.settled.filter (fun p => p.1 = j) = [] := by
        apply List.filter_eq_nil_iff.mpr
        intro p hp
        have := hsb p hp
        simp
        omega
      simp [settleCount, wsRequest, hemp]
  · intro j
    have := hs1 j
    simpa [settleCount, wsRequest] using this

theorem wsInv_disconnect (s : WSState) (h : WSInv s) :
    WSInv (wsDisconnect s) := by
  obtain ⟨hnd, hpb, hsb, hps, hs1⟩ := h
  refine ⟨by simp [wsDisconnect], by simp [wsDisconnect], ?_,
    by simp [wsDisconnect], ?_⟩
  · intro p hp
    simp only [wsDisconnect] at hp ⊢
    exact hsb p hp
  · intro j
    simpa [settleCount, wsDisconnect] using hs1 j

theorem wsInv_preserved (s : WSState) (e : WSEvent) (h : WSInv s) :
    WSInv (wsStep s e) := by
  cases e with
  | request => exact wsInv_request s h
  | response id err =>
      show WSInv (wsHandleResponse s id err)
      by_cases hid : id ∈ s.pending
      · have hc : s.pending.contains id = true := by simpa using hid
        rw [wsHandleResponse.eq_def, if_pos hc]
        exact wsInv_settle s id _ h hid
      · rw [wsHandleResponse.eq_def, if_neg (by simpa using hid)]
        exact h
  | timeoutFire id =>
      show WSInv (wsTimeoutFire s id)
      by_cases hid : id ∈ s.pending
      · have hc : s.pending.contains id = true := by simpa using hid
        rw [wsTimeoutFire, if_pos hc]
        exact wsInv_settle s id _ h hid
      · rw [wsTimeoutFire, if_neg (by simpa using hid)]
        exact h
  | disconnect => exact wsInv_disconnect s h

theorem wsRun_inv (events : List WSEvent) :
    ∀ s, WSInv s → WSInv (wsRun s events) := by
  induction events with
  | nil => intro s h; exact h
  | cons e rest ih =>
      intro s h
      simp only [wsRun, List.foldl_cons]
      exact ih (wsStep s e) (wsInv_preserved s e h)

/-- C2 counterexample: the claim asserts that a call outstanding when
`disconnect` clears the pending map "still settles (rejects via its
timeout)". Run the concrete trace: `request` (correlation id 1),
`disconnect`, then the 30s timeout of request 1 firing. The timeout
callback finds no map entry (`pendingRequests.clear()` removed it) and
returns without rejecting: the final state records NO settlement at all —
the continuation of request 1 is never invoked, refuting the claim. -/
theorem ws_disconnect_abandons_pending_counterexample :
    (wsRun wsInit [WSEvent.request, WSEvent.disconnect,
      WSEvent.timeoutFire 1]).settled = [] ∧
    (wsRun wsInit [WSEvent.request, WSEvent.disconnect,
      WSEvent.timeoutFire 1]).pending = [] :=
  ⟨rfl, rfl⟩

/-- C2 amended: on the WebSocket transport every pending request's
continuation is invoked AT MOST once (never twice), and a timeout or
response arriving while the id is still pending settles it; but an id that
is no longer in the pending map — in particular one cleared by `disconnect`
— is never settled by its later timeout or by a response: the callbacks
find no entry and do nothing, so a call outstanding at disconnect is
abandoned (its promise never settles) rather than timing out. -/
theorem ws_continuation_at_most_once (events : List WSEvent) :
    (∀ id, settleCount (wsRun wsInit events) id ≤ 1) ∧
    (∀ s id, id ∉ s.pending → wsTimeoutFire s id = s) ∧
    (∀ s id err, id ∉ s.pending → wsHandleResponse s id err = s) ∧
    (∀ s id, id ∈ s.pending →
      settleCount (wsTimeoutFire s id) id = settleCount s id + 1) ∧
    (∀ s id err, id ∈ s.pending →
      settleCount (wsHandleResponse s id err) id = settleCount s id + 1) := by
  refine ⟨?_, ?_, ?_, ?_, ?_⟩
  · intro id
    exact (wsRun_inv events wsInit wsInv_init).2.2.2.2 id
  · intro s id hid
    rw [wsTimeoutFire, if_neg (by simpa using hid)]
  · intro s id err hid
    rw [wsHandleResponse.eq_def, if_neg (by simpa using hid)]
  · intro s id hid
    have hc : s.pending.contains id = true := by simpa using hid
    rw [wsTimeoutFire, if_pos hc]
    simp [settleCount, wsSettle, List.filter_append]
  · intro s id err hid
    have hc : s.pending.contains id = true := by simpa using hid
    rw [wsHandleResponse.eq_def, if_pos hc]
    simp [settleCount, wsSettle, List.filter_append]

/-- Witness for C2 (amended): on the trace request / response / stray
timeout, correlation id 1 settles exactly once (the stray timeout no-ops);
and a timeout for an id that was never pending leaves the initial state
untouched. -/
theorem ws_continuation_at_most_once_witness :
    settleCount (wsRun wsInit [WSEvent.request, WSEvent.response 1 none,
      WSEvent.timeoutFire 1]) 1 ≤ 1 ∧
    wsTimeoutFire wsInit 7 = wsInit :=
  ⟨(ws_continuation_at_most_once [WSEvent.request, WSEvent.response 1 none,
      WSEvent.timeoutFire 1]).1 1,
   (ws_continuation_at_most_once []).2.1 wsInit 7 (by simp [wsInit])⟩

-- ============================================================================
-- C6
-- ============================================================================

/-- C6: `MCPServer.registerTool` with an already-registered name replaces the
prior definition in place rather than erroring or duplicating (it is a total
function, so it never throws), and afterwards the registry's keys are still
unique, looking the name up yields the new definition, and `listTools`
contains exactly one entry for that name. The hypotheses say the registry is
a well-formed `Map` image: unique keys, each value stored under its own
`name`. -/
theorem registerTool_replaces_uniquely {P V : Type} (tools : ToolRegistry P V)
    (t : ToolDefinition P V) (hnodup : (mapKeys tools).Nodup)
    (hwf : ∀ p ∈ tools, p.2.name = p.1) :
    (mapKeys (registerTool tools t)).Nodup ∧
    (∀ p ∈ registerTool tools t, p.2.name = p.1) ∧
    mapGet (registerTool tools t) t.name = some t ∧
    ((listTools (registerTool tools t)).filter
      (fun d => d.name = t.name)).length = 1 := by
  have hwf' : ∀ p ∈ registerTool tools t, p.2.name = p.1 := by
    intro p hp
    rcases mem_mapSet tools t.name t p hp with h1 | h1
    · exact hwf p h1
    · rw [h1]
  refine ⟨?_, hwf', mapGet_mapSet_self tools t.name t, ?_⟩
  · rw [registerTool, mapKeys_mapSet]
    by_cases hk : t.name ∈ mapKeys tools
    · simpa [hk] using hnodup
    · simp [hk, List.nodup_append, hnodup]
  · have hcnt := mapSet_filter_key_length tools t.name t hnodup
    calc ((listTools (registerTool tools t)).filter
            (fun d => d.name = t.name)).length
        = List.countP (fun d => d.name = t.name)
            ((registerTool tools t).map (·.2)) := by
          rw [List.countP_eq_length_filter]; rfl
      _ = List.countP (fun p => (p.2).name = t.name) (registerTool tools t) :=
          List.countP_map _ _ _
      _ = List.countP (fun p => p.1 = t.name) (registerTool tools t) := by
          apply List.countP_congr
          intro p hp
          simp [hwf' p hp]
      _ = ((registerTool tools t).filter
            (fun p => p.1 = t.name)).length := by
          rw [List.countP_eq_length_filter]
      _ = 1 := hcnt

/-- Witness for C6: re-registering the name `a` over a one-entry registry
leaves exactly one `a` entry in `listTools`. -/
theorem registerTool_replaces_uniquely_witness :
    ((listTools (registerTool
        ([("a", { name := "a" })] : ToolRegistry Nat Nat)
        { name := "a", description := "new" })).filter
      (fun d => d.name = "a")).length = 1 :=
  (registerTool_replaces_uniquely
    ([("a", { name := "a" })] : ToolRegistry Nat Nat)
    { name := "a", description := "new" }
    (by decide) (by decide)).2.2.2

-- ============================================================================
-- C10
-- ============================================================================

/-- C10: `registerResource` inserts the same URI key into the definition map
and the handler map, and `unregisterResource` deletes the same URI key from
both, so whenever the two registries have identical key sequences before an
operation they have identical key sequences after it — a URI has a stored
`ResourceDefinition` if and only if it has a stored handler. -/
theorem resource_registries_keys_in_sync {V : Type} (s : ResourceRegistries V)
    (d : ResourceDefinition) (h : String → V) (uri : String)
    (hsync : mapKeys s.resources = mapKeys s.resourceHandlers) :
    (mapKeys (registerResource s d h).resources =
      mapKeys (registerResource s d h).resourceHandlers) ∧
    (mapKeys (unregisterResource s uri).resources =
      mapKeys (unregisterResource s uri).resourceHandlers) ∧
    (∀ u, mapHas (registerResource s d h).resources u =
      mapHas (registerResource s d h).resourceHandlers u) ∧
    (∀ u, mapHas (unregisterResource s uri).resources u =
      mapHas (unregisterResource s uri).resourceHandlers u) := by
  have h1 : mapKeys (registerResource s d h).resources =
      mapKeys (registerResource s d h).resourceHandlers := by
    simp only [registerResource, mapKeys_mapSet, hsync]
  have h2 : mapKeys (unregisterResource s uri).resources =
      mapKeys (unregisterResource s uri).resourceHandlers := by
    simp only [unregisterResource, mapKeys_mapDelete, hsync]
  exact ⟨h1, h2, fun u => mapHas_congr _ _ h1 u, fun u => mapHas_congr _ _ h2 u⟩

/-- Witness for C10: registering `memory://recent` over the empty registries
leaves both registries with the key sequence `[memory://recent]`. -/
theorem resource_registries_keys_in_sync_witness :
    mapKeys (registerResource
        ({ resources := [], resourceHandlers := [] } : ResourceRegistries Nat)
        { uri := "memory://recent" } (fun _ => 0)).resources =
      mapKeys (registerResource
        ({ resources := [], resourceHandlers := [] } : ResourceRegistries Nat)
        { uri := "memory://recent" } (fun _ => 0)).resourceHandlers :=
  (resource_registries_keys_in_sync
    ({ resources := [], resourceHandlers := [] } : ResourceRegistries Nat)
    { uri := "memory://recent" } (fun _ => 0) "u" rfl).1

-- ============================================================================
-- C4
-- ============================================================================

/-- C4: when the per-request timeout (a fixed 30000 ms) fires for a
correlation id that is still pending — i.e. no matching response envelope
ever removed it — the pending entry is deleted and the call's promise is
rejected with the timeout error; afterwards the pending map no longer
contains that id, while every other in-flight call keeps its pending entry
and its settlement history unchanged. -/
theorem wsTimeoutFire_rejects_and_removes (s : WSState) (id : Nat)
    (hpend : id ∈ s.pending) :
    requestTimeoutMs = 30000 ∧
    (wsTimeoutFire s id).settled =
      s.settled ++ [(id, WSOutcome.rejected "Request timeout")] ∧
    id ∉ (wsTimeoutFire s id).pending ∧
    (∀ j, j ≠ id → ((j ∈ (wsTimeoutFire s id).pending) ↔ j ∈ s.pending)) ∧
    (∀ j, j ≠ id → settleCount (wsTimeoutFire s id) j = settleCount s j) := by
  refine ⟨rfl, ?_, ?_, ?_, ?_⟩
  · simp [wsTimeoutFire, wsSettle, hpend]
  · simp [wsTimeoutFire, wsSettle, hpend]
  · intro j hj
    simp [wsTimeoutFire, wsSettle, hpend, List.mem_filter, hj]
  · intro j hj
    simp [settleCount, wsTimeoutFire, wsSettle, hpend, List.filter_append,
      Ne.symm hj]

/-- Witness for C4: the timeout firing on the sole pending request `1`
rejects it with the timeout error and empties the pending map. -/
theorem wsTimeoutFire_rejects_and_removes_witness :
    (wsTimeoutFire { pending := [1] } 1).settled =
      [] ++ [(1, WSOutcome.rejected "Request timeout")] :=
  (wsTimeoutFire_rejects_and_removes { pending := [1] } 1 (by simp)).2.1

-- ============================================================================
-- C8
-- ============================================================================

/-- C8: for both the HTTP+SSE and the WebSocket transport, once
`reconnectAttempts` has reached `maxReconnectAttempts` (which defaults to 10
when the option is omitted), `reconnect` schedules no connect attempt and
leaves the state unchanged — so no matter how many more times the reconnect
path runs, no further attempt is ever made — while a successful explicit
`connect()` resets the attempt counter to 0, re-arming the policy. -/
theorem reconnect_bounded_failstop (s1 : HttpSseState) (s2 : WSState)
    (h1 : s1.maxReconnectAttempts ≤ s1.reconnectAttempts)
    (h2 : s2.maxReconnectAttempts ≤ s2.reconnectAttempts) :
    resolveMaxReconnectAttempts none = 10 ∧
    httpSseReconnect s1 = (s1, false) ∧
    (∀ n, (httpSseReconnect
      ((fun t => (httpSseReconnect t).1)^[n] s1)).2 = false) ∧
    wsReconnect s2 = (s2, false) ∧
    (∀ n, (wsReconnect ((fun t => (wsReconnect t).1)^[n] s2)).2 = false) ∧
    (httpSseOnOpen s1).reconnectAttempts = 0 ∧
    (wsOnOpen s2).reconnectAttempts = 0 := by
  have e1 : httpSseReconnect s1 = (s1, false) := by
    simp [httpSseReconnect, h1]
  have e2 : wsReconnect s2 = (s2, false) := by
    simp [wsReconnect, h2]
  have f1 : (fun t => (httpSseReconnect t).1) s1 = s1 := by
    show (httpSseReconnect s1).1 = s1
    rw [e1]
  have f2 : (fun t => (wsReconnect t).1) s2 = s2 := by
    show (wsReconnect s2).1 = s2
    rw [e2]
  refine ⟨rfl, e1, ?_, e2, ?_, rfl, rfl⟩
  · intro n
    rw [Function.iterate_fixed f1 n, e1]
  · intro n
    rw [Function.iterate_fixed f2 n, e2]

/-- Witness for C8: both transports, at the default bound of 10 with 10
attempts already made, schedule no further connect attempt and stay
unchanged. -/
theorem reconnect_bounded_failstop_witness :
    httpSseReconnect { reconnectAttempts := 10 } =
      ({ reconnectAttempts := 10 }, false) ∧
    wsReconnect { reconnectAttempts := 10 } =
      ({ reconnectAttempts := 10 }, false) :=
  ⟨(reconnect_bounded_failstop { reconnectAttempts := 10 }
      { reconnectAttempts := 10 } (by decide) (by decide)).2.1,
   (reconnect_bounded_failstop { reconnectAttempts := 10 }
      { reconnectAttempts := 10 } (by decide) (by decide)).2.2.2.1⟩

end LookingGlass
